import Mathlib

/-!
Shallow embedding of the remote-link resolution and classification pipeline of
the ndb-weekly-status repository (main sources: jira-client-clean.js and the
ConfluenceClient module).  JavaScript strings are modelled as lists of
characters (`Str`); nullable values as `Option`; code that can throw is given
the result type `Except Unit _`, where `.error ()` stands for an uncaught
JavaScript exception.  HTTP traffic is modelled by explicit response oracles.
-/

abbrev Str := List Char

/-- Convert a Lean string literal to the `Str` representation. -/
def str (s : String) : Str := s.data

/-- JavaScript `String.prototype.startsWith` on the character-list model. -/
def isPrefixStr : Str → Str → Bool
  | [], _ => true
  | _ :: _, [] => false
  | a :: s, b :: t => a == b && isPrefixStr s t

/-- JavaScript `String.prototype.includes hay needle` : the needle occurs as a
contiguous substring of the haystack. -/
def includesStr : Str → Str → Bool
  | [], needle => isPrefixStr needle []
  | hay@(_ :: t), needle => isPrefixStr needle hay || includesStr t needle

/-- JavaScript `toLowerCase` (ASCII case folding, which is all the source's
search terms need). -/
def toLowerStr (s : Str) : Str := s.map Char.toLower

/-- JavaScript `s.replace(/c/g, r)` for a single-character pattern. -/
def replChar (c r : Char) (s : Str) : Str :=
  s.map (fun x => if x = c then r else x)

/-- Whitespace as trimmed by JavaScript `String.prototype.trim` (the source
only ever meets ASCII whitespace). -/
def jsSpace (c : Char) : Bool := c == ' ' || c == '\t' || c == '\n' || c == '\r'

/-- JavaScript `String.prototype.trim`. -/
def trimStr (s : Str) : Str :=
  ((s.dropWhile jsSpace).reverse.dropWhile jsSpace).reverse

/-- Value of a hexadecimal digit, `none` for a non-hex character. -/
def hexVal (c : Char) : Option Nat :=
  if '0' ≤ c ∧ c ≤ '9' then some (c.toNat - 48)
  else if 'a' ≤ c ∧ c ≤ 'f' then some (c.toNat - 87)
  else if 'A' ≤ c ∧ c ≤ 'F' then some (c.toNat - 55)
  else none

/-- First phase of ECMAScript `decodeURIComponent`: turn every `%XX` escape
into a byte (`Sum.inr`), pass other characters through (`Sum.inl`); a `%` not
followed by two hex digits is a `URIError`. -/
def percentTokens : Str → Except Unit (List (Sum Char Nat))
  | [] => .ok []
  | c :: rest =>
    if c = '%' then
      match rest with
      | h :: l :: r2 =>
        match hexVal h, hexVal l with
        | some hv, some lv =>
          match percentTokens r2 with
          | .error e => .error e
          | .ok t => .ok (Sum.inr (hv * 16 + lv) :: t)
        | _, _ => .error ()
      | _ => .error ()
    else
      match percentTokens rest with
      | .error e => .error e
      | .ok t => .ok (Sum.inl c :: t)

/-- Is a byte a UTF-8 continuation byte (`10xxxxxx`)? -/
def isContByte (b : Nat) : Bool := 128 ≤ b && b ≤ 191

/-- Second phase of ECMAScript `decodeURIComponent`: decode the byte tokens as
UTF-8.  Continuation bytes must themselves come from `%XX` escapes; invalid
leading bytes, missing continuations, overlong encodings, surrogate code
points and out-of-range code points are `URIError`s, exactly as in the
ECMA-262 `Decode` algorithm. -/
def utf8Decode : List (Sum Char Nat) → Except Unit Str
  | [] => .ok []
  | Sum.inl c :: rest =>
    match utf8Decode rest with
    | .error e => .error e
    | .ok t => .ok (c :: t)
  | Sum.inr b :: rest =>
    if b < 128 then
      match utf8Decode rest with
      | .error e => .error e
      | .ok t => .ok (Char.ofNat b :: t)
    else if 194 ≤ b ∧ b ≤ 223 then
      match rest with
      | Sum.inr c1 :: r2 =>
        if isContByte c1 then
          match utf8Decode r2 with
          | .error e => .error e
          | .ok t => .ok (Char.ofNat ((b - 192) * 64 + (c1 - 128)) :: t)
        else .error ()
      | _ => .error ()
    else if 224 ≤ b ∧ b ≤ 239 then
      match rest with
      | Sum.inr c1 :: Sum.inr c2 :: r2 =>
        if isContByte c1 && isContByte c2 then
          let cp := (b - 224) * 4096 + (c1 - 128) * 64 + (c2 - 128)
          if cp < 2048 ∨ (55296 ≤ cp ∧ cp ≤ 57343) then .error ()
          else
            match utf8Decode r2 with
            | .error e => .error e
            | .ok t => .ok (Char.ofNat cp :: t)
        else .error ()
      | _ => .error ()
    else if 240 ≤ b ∧ b ≤ 244 then
      match rest with
      | Sum.inr c1 :: Sum.inr c2 :: Sum.inr c3 :: r2 =>
        if isContByte c1 && isContByte c2 && isContByte c3 then
          let cp := (b - 240) * 262144 + (c1 - 128) * 4096 + (c2 - 128) * 64 + (c3 - 128)
          if cp < 65536 ∨ 1114111 < cp then .error ()
          else
            match utf8Decode r2 with
            | .error e => .error e
            | .ok t => .ok (Char.ofNat cp :: t)
        else .error ()
      | _ => .error ()
    else .error ()

/-- ECMAScript `decodeURIComponent`; `.error ()` is a thrown `URIError`. -/
def decodeURIComponent (s : Str) : Except Unit Str :=
  match percentTokens s with
  | .error e => .error e
  | .ok t => utf8Decode t

/-- Run a position matcher at every start position of the string, left to
right, and return the first capture: the leftmost-match rule of a JavaScript
`String.prototype.match` with an unanchored regex. -/
def findFirstCap (f : Str → Option Str) : Str → Option Str
  | [] => none
  | s@(_ :: t) =>
    match f s with
    | some cap => some cap
    | none => findFirstCap f t

/-- Match the regex `\/pages\/\d+\/([^\/\?]+)` at one position (source
jira-client-clean.js, `extractTitleFromUrl`, first pattern). -/
def tryPagesTitleAt (s : Str) : Option Str :=
  if isPrefixStr (str ("/pages/")) s then
    let r := s.drop 7
    let d := r.takeWhile Char.isDigit
    if d.isEmpty then none
    else
      match r.dropWhile Char.isDigit with
      | a :: r2 =>
        if a = '/' then
          let cap := r2.takeWhile (fun c => !(c == '/') && !(c == '?'))
          if cap.isEmpty then none else some cap
        else none
      | [] => none
  else none

/-- Match the regex `[?&]title=([^&]+)` at one position (source
jira-client-clean.js, `extractTitleFromUrl`, second pattern). -/
def tryTitleParamAt (s : Str) : Option Str :=
  match s with
  | c :: r =>
    if (c == '?' || c == '&') && isPrefixStr (str ("title=")) r then
      let cap := (r.drop 6).takeWhile (fun c => !(c == '&'))
      if cap.isEmpty then none else some cap
    else none
  | [] => none

/-- `extractTitleFromUrl` from jira-client-clean.js: try the
`/pages/<digits>/<segment>` pattern, then the `?title=` query pattern;
percent-decode the capture; in the pages branch replace `+` and `-` by
spaces, in the title-param branch replace only `+`; trim.  The JS function
has no try/catch, so a `URIError` from `decodeURIComponent` escapes
(`.error ()`). -/
def extractTitleFromUrl (url : Str) : Except Unit (Option Str) :=
  if url.isEmpty then .ok none
  else
    match findFirstCap tryPagesTitleAt url with
    | some cap =>
      match decodeURIComponent cap with
      | .error e => .error e
      | .ok d => .ok (some (trimStr (replChar '-' ' ' (replChar '+' ' ' d))))
    | none =>
      match findFirstCap tryTitleParamAt url with
      | some cap =>
        match decodeURIComponent cap with
        | .error e => .error e
        | .ok d => .ok (some (trimStr (replChar '+' ' ' d)))
      | none => .ok none

/-- Match the regex `pageId=(\d+)` at one position. -/
def tryPageIdParamAt (s : Str) : Option Str :=
  if isPrefixStr (str ("pageId=")) s then
    let d := (s.drop 7).takeWhile Char.isDigit
    if d.isEmpty then none else some d
  else none

/-- Match the regex `\/pages\/(\d+)` at one position. -/
def trySlashPagesIdAt (s : Str) : Option Str :=
  if isPrefixStr (str ("/pages/")) s then
    let d := (s.drop 7).takeWhile Char.isDigit
    if d.isEmpty then none else some d
  else none

/-- Match the regex `pages\/(\d+)` at one position. -/
def tryPagesIdAt (s : Str) : Option Str :=
  if isPrefixStr (str ("pages/")) s then
    let d := (s.drop 6).takeWhile Char.isDigit
    if d.isEmpty then none else some d
  else none

/-- `extractPageId` (ConfluenceClient and the inline copy in
`fetchRemoteLinksForIssues`): ordered pattern attempts `pageId=(\d+)`, then
`\/pages\/(\d+)`, then `pages\/(\d+)`; a falsy (empty) URL yields null. -/
def extractPageId (url : Str) : Option Str :=
  if url.isEmpty then none
  else
    match findFirstCap tryPageIdParamAt url with
    | some d => some d
    | none =>
      match findFirstCap trySlashPagesIdAt url with
      | some d => some d
      | none => findFirstCap tryPagesIdAt url

/-- A raw remote link as delivered by the issue remote-link lookup:
`{ relationship, object: { url, title } }`, every field possibly absent. -/
structure RawRemoteLink where
  relationship : Option Str
  url : Option Str
  title : Option Str
deriving DecidableEq, Repr

/-- A Confluence link record as built by `fetchRemoteLinksForIssues`
(jira-client-clean.js): `{ url, pageId, title, relationship }`, where `title`
is always a string (possibly empty) thanks to the trailing `|| ''`. -/
structure ConfLink where
  url : Str
  pageId : Option Str
  title : Str
  relationship : Str
deriving DecidableEq, Repr

/-- JavaScript truthiness of a nullable string: null/undefined and the empty
string are falsy. -/
def truthyStr : Option Str → Bool
  | none => false
  | some s => !s.isEmpty

/-- The wiki-origin test of `fetchRemoteLinksForIssues`: the link URL is
truthy and contains one of the Confluence host/path markers (checked on the
raw URL, not lowercased, exactly as in the source). -/
def isConfluenceUrl (url : Str) : Bool :=
  includesStr url (str ("confluence")) ||
  includesStr url (str ("atlassian.net/wiki")) ||
  includesStr url (str ("confluence.eng.nutanix.com"))

/-- One step of the `confluenceLinks` mapping in `fetchRemoteLinksForIssues`:
for a wiki-origin link build `{ url, pageId, title: object.title ||
titleFromUrl || '', relationship: link.relationship || '' }`; for any other
link produce null (filtered out).  The `extractTitleFromUrl` call can throw,
which aborts the whole per-issue processing. -/
def mkConfluenceLink (raw : RawRemoteLink) : Except Unit (Option ConfLink) :=
  let url := (raw.url).getD []
  if !url.isEmpty && isConfluenceUrl url then
    match extractTitleFromUrl url with
    | .error e => .error e
    | .ok titleFromUrl =>
      .ok (some
        { url := url
          pageId := extractPageId url
          title :=
            if truthyStr raw.title then raw.title.getD []
            else if truthyStr titleFromUrl then titleFromUrl.getD []
            else []
          relationship := (raw.relationship).getD [] })
  else .ok none

/-- Exception-propagating `map` over a list, evaluated left to right: models a
JavaScript `Array.prototype.map` whose callback may throw. -/
def mapE (f : α → Except Unit β) : List α → Except Unit (List β)
  | [] => .ok []
  | a :: t =>
    match f a with
    | .error e => .error e
    | .ok b =>
      match mapE f t with
      | .error e => .error e
      | .ok r => .ok (b :: r)

/-- Exception-propagating `map` with the element index (JavaScript
`arr.map((x, idx) => ...)`), the first element receiving index `n`. -/
def mapIdxE (f : Nat → α → Except Unit β) : Nat → List α → Except Unit (List β)
  | _, [] => .ok []
  | n, a :: t =>
    match f n a with
    | .error e => .error e
    | .ok b =>
      match mapIdxE f (n + 1) t with
      | .error e => .error e
      | .ok r => .ok (b :: r)

/-- Exception-propagating map-then-drop-nulls, modelling the JavaScript
`links.map(...).filter(l => l !== null)` of `fetchRemoteLinksForIssues`. -/
def filterMapE (f : α → Except Unit (Option β)) : List α → Except Unit (List β)
  | [] => .ok []
  | a :: t =>
    match f a with
    | .error e => .error e
    | .ok b? =>
      match filterMapE f t with
      | .error e => .error e
      | .ok r => .ok (match b? with | some b => b :: r | none => r)

/-- The Confluence-link list built per issue from a raw remote-link array. -/
def extractConfLinks (links : List RawRemoteLink) : Except Unit (List ConfLink) :=
  filterMapE mkConfluenceLink links

/-- The CG filter predicate from the `cgLinks` computation of the
`/api/fetch-all-data` enrichment (jira-client-clean.js lines 1687-1703):
lowercased title contains "cg readiness" or "cg checklist", or lowercased URL
contains one of the four CG URL markers. -/
def cgLinkMatch (l : ConfLink) : Bool :=
  let title := toLowerStr l.title
  let url := toLowerStr l.url
  includesStr title (str ("cg readiness")) || includesStr title (str ("cg checklist")) ||
  includesStr url (str ("cg+readiness")) || includesStr url (str ("cg-readiness")) ||
  includesStr url (str ("cg+checklist")) || includesStr url (str ("cg-checklist"))

/-- The PG filter predicate from the `pgLinks` computation (lines 1705-1721). -/
def pgLinkMatch (l : ConfLink) : Bool :=
  let title := toLowerStr l.title
  let url := toLowerStr l.url
  includesStr title (str ("pg readiness")) || includesStr title (str ("pg checklist")) ||
  includesStr url (str ("pg+readiness")) || includesStr url (str ("pg-readiness")) ||
  includesStr url (str ("pg+checklist")) || includesStr url (str ("pg-checklist"))

/-- A display entry `{ url, title }` of the `_readinessLinks` lists. -/
structure DisplayLink where
  url : Str
  title : Str
deriving DecidableEq, Repr

/-- The display mapping of the filtered branch: keep the link title when it is
truthy and not the generic placeholder "Page", otherwise the URL-extracted
title when truthy, otherwise the fixed fallback (`'CG Readiness'` or
`'PG Readiness'`). -/
def displayLink (fallback : Str) (l : ConfLink) : Except Unit DisplayLink :=
  match extractTitleFromUrl l.url with
  | .error e => .error e
  | .ok e =>
    let fallbackT :=
      match e with
      | some t => if t.isEmpty then fallback else t
      | none => fallback
    .ok { url := l.url
          title :=
            if !l.title.isEmpty && !(l.title == str ("Page")) then l.title
            else fallbackT }

/-- The synthesized display title `Link N` for the 1-based position `i + 1`. -/
def linkN (i : Nat) : Str := str ("Link " ++ toString (i + 1))

/-- The display mapping of the broadcast branch: like `displayLink` but the
final fallback is the synthesized `Link N` for the 0-based index `i`. -/
def broadcastLink (i : Nat) (l : ConfLink) : Except Unit DisplayLink :=
  match extractTitleFromUrl l.url with
  | .error e => .error e
  | .ok e =>
    let fallbackT :=
      match e with
      | some t => if t.isEmpty then linkN i else t
      | none => linkN i
    .ok { url := l.url
          title :=
            if !l.title.isEmpty && !(l.title == str ("Page")) then l.title
            else fallbackT }

/-- The `_readinessLinks` record attached to an issue: either category list
may be null. -/
structure Readiness where
  cg : Option (List DisplayLink)
  pg : Option (List DisplayLink)
deriving DecidableEq, Repr

/-- The per-issue `_readinessLinks` computation of the `/api/fetch-all-data`
enrichment (jira-client-clean.js lines 1687-1752): build the filtered CG and
PG lists; if both are empty and the issue has at least one Confluence link,
broadcast all links (with `Link N` fallback titles) into both columns;
otherwise keep the non-empty filtered lists and null for an empty one. -/
def enrichLinks (links : List ConfLink) : Except Unit Readiness :=
  match mapE (displayLink (str ("CG Readiness"))) (links.filter cgLinkMatch) with
  | .error e => .error e
  | .ok cgL =>
    match mapE (displayLink (str ("PG Readiness"))) (links.filter pgLinkMatch) with
    | .error e => .error e
    | .ok pgL =>
      if cgL.isEmpty && pgL.isEmpty && !links.isEmpty then
        match mapIdxE broadcastLink 0 links with
        | .error e => .error e
        | .ok bcCg =>
          match mapIdxE broadcastLink 0 links with
          | .error e => .error e
          | .ok bcPg => .ok { cg := some bcCg, pg := some bcPg }
      else
        .ok { cg := if !cgL.isEmpty then some cgL else none
              pg := if !pgL.isEmpty then some pgL else none }

/-- Outcome of the remote-link lookup for one issue: a JSON array, a non-array
body, a thrown HTTP error with a response status (404, 401, 500, ...), or a
thrown error with no response (timeout, connection failure). -/
inductive FetchOutcome where
  | ok (links : List RawRemoteLink)
  | notArray
  | httpError (status : Nat)
  | netError
deriving DecidableEq

/-- An HTTP oracle assigning each issue key the outcome of its remote-link
lookup. -/
abbrev FetchOracle := Str → FetchOutcome

/-- The Confluence links the batch loop of `fetchRemoteLinksForIssues` records
for one issue: on a successful array response the extracted Confluence links
(a throw inside the `try` is caught, leaving nothing recorded); on a
non-array body nothing; on any thrown error (404 included) the per-issue
`catch` swallows the error and nothing is recorded.  A missing entry reads
back as `[]` in the enrichment step (`allConfluenceLinksMap[issue.key] || []`). -/
def confLinksFor (o : FetchOracle) (key : Str) : List ConfLink :=
  match o key with
  | .ok raws =>
    match extractConfLinks raws with
    | .ok cs => cs
    | .error _ => []
  | _ => []

/-- The whole-batch enrichment: every issue gets a `_readinessLinks` record
computed from its recorded Confluence links.  (The source processes issues in
batches of 10 with pacing delays; batching affects only pacing, not any
per-issue result, so the embedding processes the list in order.)  A throw in
the display mapping rejects the surrounding `Promise.all`, aborting the
request: hence the `Except`. -/
def enrichBatch (o : FetchOracle) (issues : List Str) : Except Unit (List (Str × Readiness)) :=
  mapE (fun k =>
    match enrichLinks (confLinksFor o k) with
    | .error e => .error e
    | .ok r => .ok (k, r)) issues

/-- Outcome of one authenticated page-metadata request.  With the source's
`validateStatus` accepting 200..599, axios only throws on network-level
failures (`thrown`); any HTTP status is delivered as a response carrying the
body fields the code reads: `data.title` and
`data.metadata.labels.results[].name` (absent field = `none`). -/
inductive HttpResp where
  | resp (status : Nat) (title : Option Str) (labels : Option (List Str))
  | thrown
deriving DecidableEq

/-- `response.data.title || null`: the empty string is falsy, so it degrades
to null. -/
def jsTitle : Option Str → Option Str
  | some t => if t.isEmpty then none else some t
  | none => none

/-- Does the Basic-auth attempt count as failed?  The source throws
`HTTP <status>` for any status other than 200, and a network failure throws
by itself. -/
def basicFails : HttpResp → Bool
  | .resp s _ _ => !(s == 200)
  | .thrown => true

/-- The Bearer-token fallback attempt inside `getPageTitle`: a network-level
failure re-throws (`.error ()` reaches the outer catch); any HTTP response is
used without a status check, yielding `response.data.title || null`. -/
def bearerAttempt : HttpResp → Except Unit (Option Str)
  | .thrown => .error ()
  | .resp _ t _ => .ok (jsTitle t)

/-- The body of `ConfluenceClient.getPageTitle`'s `try` block: validate the
URL (the string case of `extractUrl` requires an `http` prefix), extract a
page id, require a token, then try Basic auth against the content endpoint
and fall back to Bearer if Basic does not come back with status 200.
`.error ()` is an exception reaching the outer catch. -/
def getPageTitleRaw (url : Str) (token : Option Str) (basic bearer : HttpResp) :
    Except Unit (Option Str) :=
  if isPrefixStr (str ("http")) url = false then .ok none
  else
    match extractPageId url with
    | none => .ok none
    | some _ =>
      match token with
      | none => .ok none
      | some _ =>
        match basic with
        | .resp s t _ => if s == 200 then .ok (jsTitle t) else bearerAttempt bearer
        | .thrown => bearerAttempt bearer

/-- `ConfluenceClient.getPageTitle`: the outer catch absorbs every exception
and returns null, so the function is total with result `Option Str`. -/
def getPageTitle (url : Str) (token : Option Str) (basic bearer : HttpResp) :
    Option Str :=
  match getPageTitleRaw url token basic bearer with
  | .ok v => v
  | .error _ => none

/-- The Bearer half of the label fetch: a thrown request is caught by the
label-specific catch, leaving `[]`; any HTTP response supplies
`metadata.labels.results` when present, else `[]`. -/
def bearerLabels : HttpResp → List Str
  | .thrown => []
  | .resp _ _ lb => lb.getD []

/-- The label extraction of `findReadinessLink` (jira-client-clean.js): after
the Basic-then-Bearer request pair, labels are read from
`response.data.metadata.labels.results` when present, else stay `[]`.
Basic first: a 200 response supplies the labels; any other Basic outcome
falls back to the Bearer attempt. -/
def fetchLabels (basic bearer : HttpResp) : List Str :=
  match basic with
  | .resp s _ lb => if s == 200 then lb.getD [] else bearerLabels bearer
  | .thrown => bearerLabels bearer

/-- The label fetch guarded by page-id extraction: when no page id can be
extracted from the URL no request is made and labels stay `[]`. -/
def fetchLabelsFor (url : Str) (basic bearer : HttpResp) : List Str :=
  match extractPageId url with
  | none => []
  | some _ => fetchLabels basic bearer

/-- Is a remote-link fetch outcome a thrown error (HTTP error status or
network failure)?  A non-array body is not a throw. -/
def fetchFails : FetchOutcome → Bool
  | .httpError _ => true
  | .netError => true
  | .ok _ => false
  | .notArray => false

/-- A remote-link fetch outcome under which the issue records no links: a
thrown error (HTTP error status, timeout or network failure) or a malformed
body (`response.data` not an array). -/
def fetchDegraded : FetchOutcome → Bool
  | .httpError _ => true
  | .netError => true
  | .notArray => true
  | .ok _ => false

/-- The CG classification predicate exactly as the claim words it: title
contains "cg readiness", or URL contains one of the four CG URL markers.
(Second definition written from the spec sentence, for comparison with the
source-derived `cgLinkMatch`.) -/
def claimCgMatch (l : ConfLink) : Bool :=
  includesStr (toLowerStr l.title) (str ("cg readiness")) ||
  includesStr (toLowerStr l.url) (str ("cg+readiness")) ||
  includesStr (toLowerStr l.url) (str ("cg-readiness")) ||
  includesStr (toLowerStr l.url) (str ("cg+checklist")) ||
  includesStr (toLowerStr l.url) (str ("cg-checklist"))

/-- The amended CG classification: a title-based match on "cg readiness" or
"cg checklist", else the URL substring fallback. -/
def amendedCgMatch (l : ConfLink) : Bool :=
  if includesStr (toLowerStr l.title) (str ("cg readiness")) ||
     includesStr (toLowerStr l.title) (str ("cg checklist")) then true
  else
    includesStr (toLowerStr l.url) (str ("cg+readiness")) ||
    includesStr (toLowerStr l.url) (str ("cg-readiness")) ||
    includesStr (toLowerStr l.url) (str ("cg+checklist")) ||
    includesStr (toLowerStr l.url) (str ("cg-checklist"))

/-- The amended PG classification, analogous to `amendedCgMatch`. -/
def amendedPgMatch (l : ConfLink) : Bool :=
  if includesStr (toLowerStr l.title) (str ("pg readiness")) ||
     includesStr (toLowerStr l.title) (str ("pg checklist")) then true
  else
    includesStr (toLowerStr l.url) (str ("pg+readiness")) ||
    includesStr (toLowerStr l.url) (str ("pg-readiness")) ||
    includesStr (toLowerStr l.url) (str ("pg+checklist")) ||
    includesStr (toLowerStr l.url) (str ("pg-checklist"))

/-- A wiki link whose page title is a CG checklist but whose URL carries none
of the CG URL markers. -/
def cgChecklistTitledLink : ConfLink :=
  { url := str ("https://confluence.example.com/x")
    pageId := none
    title := str ("CG Checklist")
    relationship := [] }

/-- A raw remote link pointing at a viewpage-style wiki URL that carries no
extractable page id, no title segment and no link title. -/
def bareViewpageRaw : RawRemoteLink :=
  { relationship := none
    url := some (str ("https://confluence.example.com/pages/viewpage.action?x=1"))
    title := none }

/-- A wiki link titled "Meeting Notes": classifies into neither category. -/
def meetingNotesLink : ConfLink :=
  { url := str ("https://confluence.example.com/y")
    pageId := none
    title := str ("Meeting Notes")
    relationship := [] }

/-- A wiki link titled "NDB 2.10 CG Readiness": classifies into CG only. -/
def cgReadinessTitledLink : ConfLink :=
  { url := str ("https://confluence.example.com/z")
    pageId := none
    title := str ("NDB 2.10 CG Readiness")
    relationship := [] }

/-- A wiki link titled "Random Notes": classifies into neither category. -/
def randomNotesLink : ConfLink :=
  { url := str ("https://confluence.example.com/w")
    pageId := none
    title := str ("Random Notes")
    relationship := [] }

/-- An oracle whose lookup for issue "X" throws HTTP 500; every other issue
returns an empty link array. -/
def oracle500 : FetchOracle := fun k =>
  if k == str ("X") then .httpError 500 else .ok []

/-- An oracle whose lookup for issue "X" throws HTTP 404; every other issue
returns an empty link array. -/
def oracle404 : FetchOracle := fun k =>
  if k == str ("X") then .httpError 404 else .ok []

/-- An oracle whose lookup for issue "X" yields a malformed (non-array)
body; every other issue returns an empty link array. -/
def oracleBadBody : FetchOracle := fun k =>
  if k == str ("X") then .notArray else .ok []

/-- A raw remote link carrying a non-empty payload title. -/
def titledRaw : RawRemoteLink :=
  { relationship := none
    url := some (str ("https://confluence.example.com/x"))
    title := some (str ("Spec Page")) }

/-- Scenario A links: one link titled "NDB 2.10 CG Readiness", one titled
"Random Notes". -/
def scenarioALinks : List ConfLink := [cgReadinessTitledLink, randomNotesLink]

/-- The readiness record the enrichment produces for Scenario A. -/
def scenarioAReadiness : Readiness :=
  { cg := some [{ url := cgReadinessTitledLink.url, title := cgReadinessTitledLink.title }]
    pg := none }

lemma mem_of_mem_takeWhileStr {p : Char → Bool} {c : Char} :
    ∀ {l : Str}, c ∈ l.takeWhile p → c ∈ l := by
  intro l
  induction l with
  | nil => intro h; simp at h
  | cons a t ih =>
    intro h
    rw [List.takeWhile_cons] at h
    by_cases hp : p a
    · simp [hp] at h
      rcases h with h | h
      · simp [h]
      · exact List.mem_cons_of_mem _ (ih h)
    · simp [hp] at h

lemma mem_of_mem_dropWhileStr {p : Char → Bool} {c : Char} :
    ∀ {l : Str}, c ∈ l.dropWhile p → c ∈ l := by
  intro l
  induction l with
  | nil => intro h; simp at h
  | cons a t ih =>
    intro h
    rw [List.dropWhile_cons] at h
    by_cases hp : p a
    · simp [hp] at h
      exact List.mem_cons_of_mem _ (ih h)
    · simpa [hp] using h

lemma mem_of_mem_dropStr {c : Char} : ∀ (n : Nat) {l : Str}, c ∈ l.drop n → c ∈ l := by
  intro n
  induction n with
  | zero => intro l h; simpa using h
  | succ m ih =>
    intro l h
    cases l with
    | nil => simp at h
    | cons a t =>
      have h2 : c ∈ t.drop m := h
      exact List.mem_cons_of_mem _ (ih h2)

lemma dropWhile_dropWhileStr (p : Char → Bool) :
    ∀ (l : Str), (l.dropWhile p).dropWhile p = l.dropWhile p := by
  intro l
  induction l with
  | nil => rfl
  | cons a t ih =>
    rw [List.dropWhile_cons]
    by_cases hp : p a
    · simpa [hp] using ih
    · simp [List.dropWhile_cons, hp]

lemma head?_dropWhileStr {p : Char → Bool} {c : Char} :
    ∀ {l : Str}, (l.dropWhile p).head? = some c → p c = false := by
  intro l
  induction l with
  | nil => intro h; simp at h
  | cons a t ih =>
    intro h
    rw [List.dropWhile_cons] at h
    by_cases hp : p a
    · rw [if_pos hp] at h
      exact ih h
    · rw [if_neg hp] at h
      simp only [List.head?_cons, Option.some.injEq] at h
      subst h
      simpa using hp

lemma getLast?_dropWhileStr {p : Char → Bool} :
    ∀ {l : Str}, l.dropWhile p ≠ [] → (l.dropWhile p).getLast? = l.getLast? := by
  intro l
  induction l with
  | nil => intro h; simp at h
  | cons a t ih =>
    intro h
    rw [List.dropWhile_cons] at h ⊢
    by_cases hp : p a
    · rw [if_pos hp] at h ⊢
      have hne : t ≠ [] := by
        intro ht
        rw [ht] at h
        simp at h
      rw [ih h]
      cases t with
      | nil => exact absurd rfl hne
      | cons b u => rw [List.getLast?_cons_cons]
    · rw [if_neg hp]

lemma trimStr_dropWhile_self (l : Str) : (trimStr l).dropWhile jsSpace = trimStr l := by
  unfold trimStr
  cases hyr : ((l.dropWhile jsSpace).reverse.dropWhile jsSpace).reverse with
  | nil => simp
  | cons c r =>
    have hy : (l.dropWhile jsSpace).reverse.dropWhile jsSpace ≠ [] := by
      intro h
      rw [h] at hyr
      simp at hyr
    have hc : ((l.dropWhile jsSpace).reverse.dropWhile jsSpace).getLast? = some c := by
      rw [← List.head?_reverse, hyr, List.head?_cons]
    rw [getLast?_dropWhileStr hy, List.getLast?_reverse] at hc
    have hcf : jsSpace c = false := head?_dropWhileStr hc
    simp [List.dropWhile_cons, hcf]

lemma trim_reverse_eq (y : Str) (hy : y.dropWhile jsSpace = y)
    (hyr : y.reverse.dropWhile jsSpace = y.reverse) : trimStr y.reverse = y.reverse := by
  unfold trimStr
  rw [hyr, List.reverse_reverse, hy]

lemma trimStr_idem (s : Str) : trimStr (trimStr s) = trimStr s :=
  trim_reverse_eq ((s.dropWhile jsSpace).reverse.dropWhile jsSpace)
    (dropWhile_dropWhileStr _ _) (trimStr_dropWhile_self s)

lemma mem_trimStr {s : Str} {c : Char} (h : c ∈ trimStr s) : c ∈ s := by
  unfold trimStr at h
  rw [List.mem_reverse] at h
  have h2 := mem_of_mem_dropWhileStr h
  rw [List.mem_reverse] at h2
  exact mem_of_mem_dropWhileStr h2

lemma replChar_not_mem {c r : Char} (hne : c ≠ r) (s : Str) : c ∉ replChar c r s := by
  unfold replChar
  intro h
  rcases List.mem_map.mp h with ⟨x, _, hmap⟩
  by_cases hxc : x = c
  · rw [if_pos hxc] at hmap
    exact hne hmap.symm
  · rw [if_neg hxc] at hmap
    exact hxc hmap

lemma replChar_preserve_not_mem {x c r : Char} {s : Str} (hs : x ∉ s) (hr : x ≠ r) :
    x ∉ replChar c r s := by
  unfold replChar
  intro h
  rcases List.mem_map.mp h with ⟨y, hy, hmap⟩
  by_cases hyc : y = c
  · rw [if_pos hyc] at hmap
    exact hr hmap.symm
  · rw [if_neg hyc] at hmap
    rw [hmap] at hy
    exact hs hy

lemma percentTokens_no_percent :
    ∀ {s : Str}, '%' ∉ s → percentTokens s = .ok (s.map Sum.inl) := by
  intro s
  induction s with
  | nil => intro _; rfl
  | cons c t ih =>
    intro h
    have hc : ¬(c = '%') := by
      intro hc
      exact h (by rw [hc]; exact List.mem_cons_self _ _)
    have ht : '%' ∉ t := fun hm => h (List.mem_cons_of_mem _ hm)
    have hrec := ih ht
    cases t with
    | nil =>
      show (if c = '%' then Except.error () else Except.ok [Sum.inl c])
          = Except.ok ((c :: []).map Sum.inl)
      rw [if_neg hc]
      rfl
    | cons a u =>
      cases u with
      | nil =>
        show (if c = '%' then Except.error ()
              else
                match percentTokens [a] with
                | .error e => .error e
                | .ok tt => Except.ok (Sum.inl c :: tt))
            = Except.ok ((c :: [a]).map Sum.inl)
        rw [if_neg hc, hrec]
        rfl
      | cons b v =>
        show (if c = '%' then
                match hexVal a, hexVal b with
                | some hv, some lv =>
                  match percentTokens v with
                  | .error e => .error e
                  | .ok tt => Except.ok (Sum.inr (hv * 16 + lv) :: tt)
                | _, _ => Except.error ()
              else
                match percentTokens (a :: b :: v) with
                | .error e => .error e
                | .ok tt => Except.ok (Sum.inl c :: tt))
            = Except.ok ((c :: a :: b :: v).map Sum.inl)
        rw [if_neg hc, hrec]
        rfl

lemma utf8Decode_all_inl : ∀ (s : Str), utf8Decode (s.map Sum.inl) = .ok s := by
  intro s
  induction s with
  | nil => rfl
  | cons c t ih =>
    show (match utf8Decode (t.map Sum.inl) with
          | .error e => .error e
          | .ok tt => Except.ok (c :: tt)) = Except.ok (c :: t)
    rw [ih]

lemma decode_no_percent {s : Str} (h : '%' ∉ s) : decodeURIComponent s = .ok s := by
  unfold decodeURIComponent
  rw [percentTokens_no_percent h]
  exact utf8Decode_all_inl s

lemma tryPagesTitleAt_capture_mem {s cap : Str} (h : tryPagesTitleAt s = some cap) :
    ∀ c ∈ cap, c ∈ s := by
  unfold tryPagesTitleAt at h
  by_cases hp : isPrefixStr (str ("/pages/")) s = true
  · rw [if_pos hp] at h
    by_cases hd : ((s.drop 7).takeWhile Char.isDigit).isEmpty = true
    · rw [if_pos hd] at h
      exact absurd h (by simp)
    · rw [if_neg hd] at h
      intro c hc
      cases hr : (s.drop 7).dropWhile Char.isDigit with
      | nil =>
        rw [hr] at h
        exact absurd h (by simp)
      | cons a r2 =>
        rw [hr] at h
        dsimp only at h
        by_cases ha : a = '/'
        · rw [if_pos ha] at h
          by_cases hcap : (r2.takeWhile (fun c => !(c == '/') && !(c == '?'))).isEmpty = true
          · rw [if_pos hcap] at h
            exact absurd h (by simp)
          · rw [if_neg hcap] at h
            have hcap2 : cap = r2.takeWhile (fun c => !(c == '/') && !(c == '?')) := by
              cases h
              rfl
            rw [hcap2] at hc
            have h1 : c ∈ r2 := mem_of_mem_takeWhileStr hc
            have h2 : c ∈ (s.drop 7).dropWhile Char.isDigit := by
              rw [hr]
              exact List.mem_cons_of_mem _ h1
            exact mem_of_mem_dropStr 7 (mem_of_mem_dropWhileStr h2)
        · rw [if_neg ha] at h
          exact absurd h (by simp)
  · rw [if_neg hp] at h
    exact absurd h (by simp)

lemma tryTitleParamAt_capture_mem {s cap : Str} (h : tryTitleParamAt s = some cap) :
    ∀ c ∈ cap, c ∈ s := by
  unfold tryTitleParamAt at h
  cases s with
  | nil => exact absurd h (by simp)
  | cons c0 r =>
    dsimp only at h
    by_cases hg : ((c0 == '?' || c0 == '&') && isPrefixStr (str ("title=")) r) = true
    · rw [if_pos hg] at h
      by_cases hcap : ((r.drop 6).takeWhile (fun c => !(c == '&'))).isEmpty = true
      · rw [if_pos hcap] at h
        exact absurd h (by simp)
      · rw [if_neg hcap] at h
        intro c hc
        have hcap2 : cap = (r.drop 6).takeWhile (fun c => !(c == '&')) := by
          cases h
          rfl
        rw [hcap2] at hc
        have h1 : c ∈ r.drop 6 := mem_of_mem_takeWhileStr hc
        exact List.mem_cons_of_mem _ (mem_of_mem_dropStr 6 h1)
    · rw [if_neg hg] at h
      exact absurd h (by simp)

lemma findFirstCap_capture_mem {f : Str → Option Str}
    (hf : ∀ s cap, f s = some cap → ∀ c ∈ cap, c ∈ s) :
    ∀ {url cap : Str}, findFirstCap f url = some cap → ∀ c ∈ cap, c ∈ url := by
  intro url
  induction url with
  | nil => intro cap h; exact absurd h (by simp [findFirstCap])
  | cons a t ih =>
    intro cap h
    rw [findFirstCap] at h
    cases hfa : f (a :: t) with
    | some cap2 =>
      rw [hfa] at h
      cases h
      exact hf _ _ hfa
    | none =>
      rw [hfa] at h
      intro c hc
      exact List.mem_cons_of_mem _ (ih h c hc)

lemma extractTitleFromUrl_isOk_of_no_percent {url : Str} (h : '%' ∉ url) :
    (extractTitleFromUrl url).isOk = true := by
  unfold extractTitleFromUrl
  by_cases he : url.isEmpty = true
  · rw [if_pos he]
    rfl
  · rw [if_neg he]
    cases h1 : findFirstCap tryPagesTitleAt url with
    | some cap =>
      have hnc : '%' ∉ cap := by
        intro hm
        exact h (findFirstCap_capture_mem (fun s c hh => tryPagesTitleAt_capture_mem hh) h1 '%' hm)
      dsimp only
      rw [decode_no_percent hnc]
      rfl
    | none =>
      cases h2 : findFirstCap tryTitleParamAt url with
      | some cap =>
        have hnc : '%' ∉ cap := by
          intro hm
          exact h (findFirstCap_capture_mem (fun s c hh => tryTitleParamAt_capture_mem hh) h2 '%' hm)
        dsimp only
        rw [decode_no_percent hnc]
        rfl
      | none => rfl

lemma mapE_ok_forall₂ {α β : Type} {f : α → Except Unit β} :
    ∀ {l : List α} {ys : List β}, mapE f l = .ok ys →
      List.Forall₂ (fun a b => f a = .ok b) l ys := by
  intro l
  induction l with
  | nil =>
    intro ys h
    rw [mapE] at h
    cases h
    exact List.Forall₂.nil
  | cons a t ih =>
    intro ys h
    rw [mapE] at h
    cases hfa : f a with
    | error e =>
      rw [hfa] at h
      simp at h
    | ok b =>
      rw [hfa] at h
      dsimp only at h
      cases hmt : mapE f t with
      | error e =>
        rw [hmt] at h
        simp at h
      | ok r =>
        rw [hmt] at h
        dsimp only at h
        cases h
        exact List.Forall₂.cons hfa (ih hmt)

lemma isOk_exists {β : Type} {x : Except Unit β} (h : x.isOk = true) : ∃ b, x = .ok b := by
  cases x with
  | error e => simp [Except.isOk, Except.toBool] at h
  | ok b => exact ⟨b, rfl⟩

lemma mapE_ok_of_forall {α β : Type} {f : α → Except Unit β} :
    ∀ {l : List α}, (∀ a ∈ l, (f a).isOk = true) → ∃ ys, mapE f l = .ok ys := by
  intro l
  induction l with
  | nil => intro _; exact ⟨[], rfl⟩
  | cons a t ih =>
    intro h
    rcases isOk_exists (h a (List.mem_cons_self _ _)) with ⟨b, hb⟩
    rcases ih (fun x hx => h x (List.mem_cons_of_mem _ hx)) with ⟨r, hr⟩
    refine ⟨b :: r, ?_⟩
    rw [mapE, hb, hr]

lemma mapIdxE_ok_spec {α β : Type} {f : Nat → α → Except Unit β} :
    ∀ {l : List α} {n : Nat} {ys : List β}, mapIdxE f n l = .ok ys →
      ys.length = l.length ∧
      ∀ i (hi : i < l.length) (hy : i < ys.length),
        f (n + i) (l.get ⟨i, hi⟩) = .ok (ys.get ⟨i, hy⟩) := by
  intro l
  induction l with
  | nil =>
    intro n ys h
    rw [mapIdxE] at h
    cases h
    exact ⟨rfl, fun i hi => absurd hi (by simp)⟩
  | cons a t ih =>
    intro n ys h
    rw [mapIdxE] at h
    cases hfa : f n a with
    | error e =>
      rw [hfa] at h
      simp at h
    | ok b =>
      rw [hfa] at h
      dsimp only at h
      cases hmt : mapIdxE f (n + 1) t with
      | error e =>
        rw [hmt] at h
        simp at h
      | ok r =>
        rw [hmt] at h
        dsimp only at h
        cases h
        rcases ih hmt with ⟨hlen, hget⟩
        refine ⟨by simp [hlen], ?_⟩
        intro i hi hy
        cases i with
        | zero => simpa using hfa
        | succ j =>
          have hj : j < t.length := by simpa using hi
          have hjy : j < r.length := by simpa using hy
          have h2 := hget j hj hjy
          have hn : n + (j + 1) = n + 1 + j := by omega
          rw [List.get_cons_succ, List.get_cons_succ, hn]
          exact h2

lemma mapIdxE_ok_of_forall {α β : Type} {f : Nat → α → Except Unit β} :
    ∀ {l : List α} (n : Nat), (∀ i a, (f i a).isOk = true) → ∃ ys, mapIdxE f n l = .ok ys := by
  intro l
  induction l with
  | nil => intro n _; exact ⟨[], rfl⟩
  | cons a t ih =>
    intro n h
    rcases isOk_exists (h n a) with ⟨b, hb⟩
    rcases ih (n + 1) h with ⟨r, hr⟩
    refine ⟨b :: r, ?_⟩
    rw [mapIdxE, hb, hr]

lemma displayLink_ok_url {fb : Str} {l : ConfLink} {d : DisplayLink}
    (h : displayLink fb l = .ok d) : d.url = l.url := by
  unfold displayLink at h
  cases he : extractTitleFromUrl l.url with
  | error e =>
    rw [he] at h
    simp at h
  | ok e =>
    rw [he] at h
    dsimp only at h
    cases h
    rfl

lemma broadcastLink_ok_spec {i : Nat} {l : ConfLink} {d : DisplayLink}
    (h : broadcastLink i l = .ok d) :
    d.url = l.url ∧
      (d.title = l.title ∨
       (∃ t, extractTitleFromUrl l.url = .ok (some t) ∧ d.title = t) ∨
       d.title = linkN i) := by
  unfold broadcastLink at h
  cases he : extractTitleFromUrl l.url with
  | error e =>
    rw [he] at h
    simp at h
  | ok e =>
    rw [he] at h
    dsimp only at h
    cases h
    refine ⟨rfl, ?_⟩
    dsimp only
    by_cases ht : (!l.title.isEmpty && !(l.title == str ("Page"))) = true
    · rw [if_pos ht]
      exact Or.inl rfl
    · rw [if_neg ht]
      cases e with
      | none => exact Or.inr (Or.inr rfl)
      | some t =>
        dsimp only
        by_cases hte : t.isEmpty = true
        · rw [if_pos hte]
          exact Or.inr (Or.inr rfl)
        · rw [if_neg hte]
          exact Or.inr (Or.inl ⟨t, rfl, rfl⟩)

lemma forall₂_map_eq {α β γ : Type} {R : α → β → Prop} (g1 : α → γ) (g2 : β → γ)
    (hR : ∀ a b, R a b → g2 b = g1 a) :
    ∀ {l1 : List α} {l2 : List β}, List.Forall₂ R l1 l2 → l2.map g2 = l1.map g1 := by
  intro l1 l2 h
  induction h with
  | nil => rfl
  | cons hab _ ih => simp [List.map_cons, hR _ _ hab, ih]

lemma forall₂_mem_right {α β : Type} {R : α → β → Prop} :
    ∀ {l1 : List α} {l2 : List β}, List.Forall₂ R l1 l2 → ∀ b ∈ l2, ∃ a ∈ l1, R a b := by
  intro l1 l2 h
  induction h with
  | nil =>
    intro b hb
    simp at hb
  | cons hab _ ih =>
    intro b hb
    rcases List.mem_cons.mp hb with hb | hb
    · exact ⟨_, List.mem_cons_self _ _, hb ▸ hab⟩
    · rcases ih b hb with ⟨a, ha, hr⟩
      exact ⟨a, List.mem_cons_of_mem _ ha, hr⟩

lemma confLinksFor_fail {o : FetchOracle} {k : Str} (h : fetchFails (o k) = true) :
    confLinksFor o k = [] := by
  unfold confLinksFor
  cases ho : o k with
  | ok raws =>
    rw [ho] at h
    exact absurd h (by rw [show fetchFails (FetchOutcome.ok raws) = false from rfl]; simp)
  | notArray => rfl
  | httpError s => rfl
  | netError => rfl

lemma confLinksFor_degraded {o : FetchOracle} {k : Str} (h : fetchDegraded (o k) = true) :
    confLinksFor o k = [] := by
  unfold confLinksFor
  cases ho : o k with
  | ok raws =>
    rw [ho] at h
    exact absurd h (by rw [show fetchDegraded (FetchOutcome.ok raws) = false from rfl]; simp)
  | notArray => rfl
  | httpError s => rfl
  | netError => rfl

lemma enrichLinks_nil : enrichLinks [] = .ok { cg := none, pg := none } := rfl

lemma enrichBatch_elem {o : FetchOracle} {k : Str} {p : Str × Readiness}
    (h : (match enrichLinks (confLinksFor o k) with
          | .error e => Except.error e
          | .ok r => Except.ok (k, r)) = Except.ok p) :
    p.1 = k ∧ enrichLinks (confLinksFor o k) = .ok p.2 := by
  cases he : enrichLinks (confLinksFor o k) with
  | error e =>
    rw [he] at h
    simp at h
  | ok r =>
    rw [he] at h
    dsimp only at h
    cases h
    exact ⟨rfl, rfl⟩

lemma enrichBatch_ok_of_pointwise (o : FetchOracle) (issues : List Str)
    (hok : ∀ k ∈ issues, (enrichLinks (confLinksFor o k)).isOk = true) :
    ∃ rs, enrichBatch o issues = .ok rs ∧ rs.map Prod.fst = issues ∧
      ∀ p ∈ rs, enrichLinks (confLinksFor o p.1) = .ok p.2 := by
  have hfe : ∀ k ∈ issues,
      ((fun k =>
        match enrichLinks (confLinksFor o k) with
        | .error e => Except.error e
        | .ok r => Except.ok (k, r)) k).isOk = true := by
    intro k hk
    rcases isOk_exists (hok k hk) with ⟨r, hr⟩
    dsimp only
    rw [hr]
    rfl
  rcases mapE_ok_of_forall hfe with ⟨rs, hrs⟩
  have hfa := mapE_ok_forall₂ hrs
  refine ⟨rs, hrs, ?_, ?_⟩
  · have := forall₂_map_eq (fun k => k) Prod.fst
      (fun k p hk => (enrichBatch_elem hk).1) hfa
    simpa using this
  · intro p hp
    rcases forall₂_mem_right hfa p hp with ⟨k, _, hk⟩
    have he := enrichBatch_elem hk
    rw [he.1]
    exact he.2

/-- C1 counterexample: a wiki link whose title is "CG Checklist" (and whose
URL carries none of the four CG URL markers) is classified into CG by the
source's filter, while the claim's iff — title contains "cg readiness" or URL
contains one of the four markers — says it is not: the claim omits the
title-based "cg checklist" match present in the code. -/
theorem cg_classification_checklist_counterexample :
    cgLinkMatch cgChecklistTitledLink = true
    ∧ claimCgMatch cgChecklistTitledLink = false := by
  constructor <;> rfl

/-- C1 (amended): a wiki-origin link is classified into CG iff its lowercased
title contains "cg readiness" or "cg checklist", or its lowercased URL
contains one of "cg+readiness", "cg-readiness", "cg+checklist",
"cg-checklist"; analogously for PG with "pg readiness"/"pg checklist" and the
PG URL markers.  The two category decisions remain independent. -/
theorem cg_pg_classification_amended :
    ∀ l : ConfLink, cgLinkMatch l = amendedCgMatch l ∧ pgLinkMatch l = amendedPgMatch l := by
  intro l
  constructor
  · simp only [cgLinkMatch, amendedCgMatch]
    cases h1 : includesStr (toLowerStr l.title) (str ("cg readiness")) <;>
      cases h2 : includesStr (toLowerStr l.title) (str ("cg checklist")) <;>
        simp [h1, h2, Bool.or_assoc]
  · simp only [pgLinkMatch, amendedPgMatch]
    cases h1 : includesStr (toLowerStr l.title) (str ("pg readiness")) <;>
      cases h2 : includesStr (toLowerStr l.title) (str ("pg checklist")) <;>
        simp [h1, h2, Bool.or_assoc]

/-- C8 counterexample: `extractTitleFromUrl` is not failure-free — on a URL
whose captured title segment is a malformed percent-escape (a bare `%`), the
`decodeURIComponent` call throws a `URIError` that escapes the function,
since it has no try/catch. -/
theorem extractTitle_throws_on_malformed_escape :
    extractTitleFromUrl (str ("https://w/pages/123/%")) = .error () := by rfl

/-- C8 (amended): URL-pattern title extraction takes the path segment after
the numeric page-id segment, percent-decodes it, replaces `+` and `-` by
spaces and trims; for `.../pages/468276167/NDB-2.10+CG+Readiness` it yields
exactly "NDB 2.10 CG Readiness", and it returns (rather than throws) on every
URL free of percent-escapes; it can, however, throw `URIError` on a malformed
percent-escape. -/
theorem extractTitle_pattern_extraction_amended :
    extractTitleFromUrl
      (str ("https://confluence.eng.nutanix.com:8443/spaces/ED/pages/468276167/NDB-2.10+CG+Readiness"))
      = .ok (some (str ("NDB 2.10 CG Readiness")))
    ∧ ∀ url : Str, '%' ∉ url → (extractTitleFromUrl url).isOk = true :=
  ⟨by rfl, fun _ h => extractTitleFromUrl_isOk_of_no_percent h⟩

/-- C8 witness: the no-throw half of the amended claim evaluated at a
concrete percent-free URL. -/
theorem extractTitle_pattern_extraction_amended_witness :
    '%' ∉ str ("https://c/pages/9/Hi")
    ∧ (extractTitleFromUrl (str ("https://c/pages/9/Hi"))).isOk = true :=
  ⟨by decide,
   extractTitle_pattern_extraction_amended.2 (str ("https://c/pages/9/Hi")) (by decide)⟩

/-- C10 counterexample: in the `?title=` query fallback branch only `+` is
replaced by a space, so a hyphen survives into the returned title, contrary
to the claim that the result never contains `-`. -/
theorem extractTitle_keeps_hyphen_in_title_param :
    extractTitleFromUrl (str ("http://x/?title=My-Page")) = .ok (some (str ("My-Page")))
    ∧ '-' ∈ str ("My-Page") := by
  constructor
  · rfl
  · decide

/-- C10 (amended): whenever `extractTitleFromUrl` returns a title, that title
is trimmed and contains no `+`; when the title came from the pages-path
pattern, it also contains no `-` (every `+` and `-` of the matched segment —
hyphens of real page names included — becomes a space, so extraction is lossy
for hyphenated names); in the `?title=` fallback branch hyphens survive. -/
theorem extractTitle_output_shape_amended :
    ∀ (url t : Str), extractTitleFromUrl url = .ok (some t) →
      trimStr t = t ∧ '+' ∉ t ∧
      (∀ cap, findFirstCap tryPagesTitleAt url = some cap → '-' ∉ t) := by
  intro url t h
  unfold extractTitleFromUrl at h
  by_cases he : url.isEmpty = true
  · rw [if_pos he] at h
    simp at h
  · rw [if_neg he] at h
    cases h1 : findFirstCap tryPagesTitleAt url with
    | some cap =>
      rw [h1] at h
      dsimp only at h
      cases hd : decodeURIComponent cap with
      | error e =>
        rw [hd] at h
        simp at h
      | ok d =>
        rw [hd] at h
        dsimp only at h
        cases h
        refine ⟨trimStr_idem _, ?_, ?_⟩
        · intro hm
          have hm2 := mem_trimStr hm
          have hplus : '+' ∉ replChar '+' ' ' d := replChar_not_mem (by decide) d
          exact replChar_preserve_not_mem hplus (by decide) hm2
        · intro cap2 _ hm
          have hm2 := mem_trimStr hm
          exact replChar_not_mem (by decide) (replChar '+' ' ' d) hm2
    | none =>
      rw [h1] at h
      dsimp only at h
      cases h2 : findFirstCap tryTitleParamAt url with
      | some cap =>
        rw [h2] at h
        dsimp only at h
        cases hd : decodeURIComponent cap with
        | error e =>
          rw [hd] at h
          simp at h
        | ok d =>
          rw [hd] at h
          dsimp only at h
          cases h
          refine ⟨trimStr_idem _, ?_, ?_⟩
          · intro hm
            exact replChar_not_mem (by decide) d (mem_trimStr hm)
          · intro cap2 hcap2
            exact absurd hcap2 (by simp)
      | none =>
        rw [h2] at h
        simp at h

/-- C10 witness: the amended claim evaluated at the concrete pages-path URL,
with both hypotheses discharged. -/
theorem extractTitle_output_shape_amended_witness :
    trimStr (str ("NDB 2.10 CG Readiness")) = str ("NDB 2.10 CG Readiness")
    ∧ '+' ∉ str ("NDB 2.10 CG Readiness")
    ∧ (∀ cap, findFirstCap tryPagesTitleAt
        (str ("https://confluence.eng.nutanix.com:8443/spaces/ED/pages/468276167/NDB-2.10+CG+Readiness"))
        = some cap → '-' ∉ str ("NDB 2.10 CG Readiness")) :=
  extractTitle_output_shape_amended
    (str ("https://confluence.eng.nutanix.com:8443/spaces/ED/pages/468276167/NDB-2.10+CG+Readiness"))
    (str ("NDB 2.10 CG Readiness")) (by rfl)

/-- C9 counterexample: for a wiki-origin link with no payload title and a URL
from which no title can be pattern-extracted, the attached title is the empty
string (the trailing JavaScript fallback is `|| ''`), not null as the claim
states. -/
theorem link_title_empty_string_not_null :
    mkConfluenceLink bareViewpageRaw
      = .ok (some
          { url := str ("https://confluence.example.com/pages/viewpage.action?x=1")
            pageId := none
            title := []
            relationship := [] })
    ∧ extractTitleFromUrl (str ("https://confluence.example.com/pages/viewpage.action?x=1"))
        = .ok none := by
  constructor <;> rfl

/-- C9 (amended): for every raw link accepted as wiki-origin, the attached
title follows a strict precedence — it is the remote-link payload title
whenever that is a non-empty string; when the payload title is falsy it is
the URL-pattern-extracted title whenever that is a non-empty string; and when
both are falsy it is the empty string (not null). -/
theorem link_title_precedence_amended :
    ∀ (raw : RawRemoteLink) (cl : ConfLink), mkConfluenceLink raw = .ok (some cl) →
      (∀ t, raw.title = some t → t.isEmpty = false → cl.title = t) ∧
      (truthyStr raw.title = false →
        ∀ e, extractTitleFromUrl cl.url = .ok (some e) → e.isEmpty = false → cl.title = e) ∧
      (truthyStr raw.title = false →
        ∀ eo, extractTitleFromUrl cl.url = .ok eo → truthyStr eo = false → cl.title = []) := by
  intro raw cl h
  unfold mkConfluenceLink at h
  by_cases hc : (!((raw.url).getD []).isEmpty && isConfluenceUrl ((raw.url).getD [])) = true
  · rw [if_pos hc] at h
    cases he : extractTitleFromUrl ((raw.url).getD []) with
    | error e =>
      rw [he] at h
      simp at h
    | ok tfu =>
      rw [he] at h
      dsimp only at h
      cases h
      dsimp only
      refine ⟨?_, ?_, ?_⟩
      · intro t hrt hne
        have ht : truthyStr raw.title = true := by
          rw [hrt]
          simp [truthyStr, hne]
        rw [if_pos ht, hrt]
        rfl
      · intro ht e hex hne
        rw [if_neg (by rw [ht]; simp)]
        have htfu : tfu = some e := Except.ok.inj (he.symm.trans hex)
        have htu : truthyStr tfu = true := by
          rw [htfu]
          simp [truthyStr, hne]
        rw [if_pos htu, htfu]
        rfl
      · intro ht eo hex hfo
        rw [if_neg (by rw [ht]; simp)]
        have htfu : tfu = eo := Except.ok.inj (he.symm.trans hex)
        rw [if_neg (by rw [htfu, hfo]; simp)]
  · rw [if_neg hc] at h
    simp at h

/-- C9 witness: the precedence exercised at two concrete links — one whose
payload title "Spec Page" is kept, and the bare viewpage link where both
title sources are falsy and the attached title is the empty string. -/
theorem link_title_precedence_amended_witness :
    ({ url := str ("https://confluence.example.com/x")
       pageId := none, title := str ("Spec Page"), relationship := [] } : ConfLink).title
      = str ("Spec Page") ∧
    ({ url := str ("https://confluence.example.com/pages/viewpage.action?x=1")
       pageId := none, title := [], relationship := [] } : ConfLink).title = [] :=
  ⟨(link_title_precedence_amended titledRaw
      { url := str ("https://confluence.example.com/x")
        pageId := none, title := str ("Spec Page"), relationship := [] } (by rfl)).1
      (str ("Spec Page")) rfl (by rfl),
   (link_title_precedence_amended bareViewpageRaw
      { url := str ("https://confluence.example.com/pages/viewpage.action?x=1")
        pageId := none, title := [], relationship := [] } (by rfl)).2.2
      (by rfl) none (by rfl) (by rfl)⟩

lemma filter_eq_nil_of_none {α : Type} {p : α → Bool} :
    ∀ {l : List α}, (∀ a ∈ l, p a = false) → l.filter p = [] := by
  intro l
  induction l with
  | nil => intro _; rfl
  | cons a t ih =>
    intro h
    rw [List.filter_cons, h a (List.mem_cons_self _ _)]
    exact ih (fun x hx => h x (List.mem_cons_of_mem _ hx))

lemma filter_ne_nil_of_mem {α : Type} {p : α → Bool} {a : α} :
    ∀ {l : List α}, a ∈ l → p a = true → l.filter p ≠ [] := by
  intro l
  induction l with
  | nil => intro h; simp at h
  | cons b t ih =>
    intro h hp
    rcases List.mem_cons.mp h with h | h
    · subst h
      rw [List.filter_cons, hp]
      simp
    · rw [List.filter_cons]
      cases hb : p b with
      | true => simp
      | false =>
        simp only [Bool.false_eq_true, if_false]
        exact ih h hp

/-- C2: for a work item with at least one wiki-origin link none of which
classifies into CG or PG, the enrichment broadcasts all links, in order, into
both category lists, each entry keeping its url and carrying its link title,
its URL-extracted title, or the synthesized "Link N" (N the 1-based
position). -/
theorem broadcast_fallback (links : List ConfLink) (r : Readiness)
    (hne : links ≠ [])
    (hnomatch : ∀ l ∈ links, cgLinkMatch l = false ∧ pgLinkMatch l = false)
    (henr : enrichLinks links = .ok r) :
    ∃ bc, r.cg = some bc ∧ r.pg = some bc ∧
      bc.length = links.length ∧
      ∀ i (hi : i < links.length) (hb : i < bc.length),
        (bc.get ⟨i, hb⟩).url = (links.get ⟨i, hi⟩).url ∧
        ((bc.get ⟨i, hb⟩).title = (links.get ⟨i, hi⟩).title ∨
         (∃ t, extractTitleFromUrl (links.get ⟨i, hi⟩).url = .ok (some t) ∧
            (bc.get ⟨i, hb⟩).title = t) ∨
         (bc.get ⟨i, hb⟩).title = linkN i) := by
  have hcg : links.filter cgLinkMatch = [] :=
    filter_eq_nil_of_none (fun l hl => (hnomatch l hl).1)
  have hpg : links.filter pgLinkMatch = [] :=
    filter_eq_nil_of_none (fun l hl => (hnomatch l hl).2)
  have hcgL : mapE (displayLink (str ("CG Readiness"))) (links.filter cgLinkMatch)
      = .ok [] := by rw [hcg]; rfl
  have hpgL : mapE (displayLink (str ("PG Readiness"))) (links.filter pgLinkMatch)
      = .ok [] := by rw [hpg]; rfl
  unfold enrichLinks at henr
  rw [hcgL, hpgL] at henr
  dsimp only at henr
  have hcond : (List.isEmpty ([] : List DisplayLink) && List.isEmpty ([] : List DisplayLink)
      && !links.isEmpty) = true := by
    cases links with
    | nil => exact absurd rfl hne
    | cons a t => rfl
  rw [if_pos hcond] at henr
  cases hbc : mapIdxE broadcastLink 0 links with
  | error e =>
    rw [hbc] at henr
    simp at henr
  | ok bc =>
    rw [hbc] at henr
    dsimp only at henr
    cases henr
    rcases mapIdxE_ok_spec hbc with ⟨hlen, hget⟩
    refine ⟨bc, rfl, rfl, hlen, ?_⟩
    intro i hi hb
    have hgi := hget i hi hb
    rw [Nat.zero_add] at hgi
    exact broadcastLink_ok_spec hgi

/-- C2 witness: the broadcast fallback at a concrete single unclassifiable
link. -/
theorem broadcast_fallback_witness :
    ∃ bc, (Readiness.mk
        (some [{ url := meetingNotesLink.url, title := meetingNotesLink.title }])
        (some [{ url := meetingNotesLink.url, title := meetingNotesLink.title }])).cg = some bc ∧
      (Readiness.mk
        (some [{ url := meetingNotesLink.url, title := meetingNotesLink.title }])
        (some [{ url := meetingNotesLink.url, title := meetingNotesLink.title }])).pg = some bc ∧
      bc.length = [meetingNotesLink].length ∧
      ∀ i (hi : i < [meetingNotesLink].length) (hb : i < bc.length),
        (bc.get ⟨i, hb⟩).url = ([meetingNotesLink].get ⟨i, hi⟩).url ∧
        ((bc.get ⟨i, hb⟩).title = ([meetingNotesLink].get ⟨i, hi⟩).title ∨
         (∃ t, extractTitleFromUrl ([meetingNotesLink].get ⟨i, hi⟩).url = .ok (some t) ∧
            (bc.get ⟨i, hb⟩).title = t) ∨
         (bc.get ⟨i, hb⟩).title = linkN i) :=
  broadcast_fallback [meetingNotesLink] _ (by decide) (by decide) (by rfl)

/-- C3: for a work item with at least one classified wiki-origin link, each
category list holds exactly the links classified into that category (same
urls, same order), and a category with zero classified links gets null — no
broadcast in the partial-match case. -/
theorem filtered_no_broadcast (links : List ConfLink) (r : Readiness)
    (hmatch : ∃ l ∈ links, cgLinkMatch l = true ∨ pgLinkMatch l = true)
    (henr : enrichLinks links = .ok r) :
    (r.cg = none ↔ links.filter cgLinkMatch = []) ∧
    (∀ cs, r.cg = some cs →
      cs.map DisplayLink.url = (links.filter cgLinkMatch).map ConfLink.url) ∧
    (r.pg = none ↔ links.filter pgLinkMatch = []) ∧
    (∀ ps, r.pg = some ps →
      ps.map DisplayLink.url = (links.filter pgLinkMatch).map ConfLink.url) := by
  unfold enrichLinks at henr
  cases hcgm : mapE (displayLink (str ("CG Readiness"))) (links.filter cgLinkMatch) with
  | error e =>
    rw [hcgm] at henr
    simp at henr
  | ok cgL =>
    rw [hcgm] at henr
    dsimp only at henr
    cases hpgm : mapE (displayLink (str ("PG Readiness"))) (links.filter pgLinkMatch) with
    | error e =>
      rw [hpgm] at henr
      simp at henr
    | ok pgL =>
      rw [hpgm] at henr
      dsimp only at henr
      have hcglen : (links.filter cgLinkMatch).length = cgL.length :=
        (mapE_ok_forall₂ hcgm).length_eq
      have hpglen : (links.filter pgLinkMatch).length = pgL.length :=
        (mapE_ok_forall₂ hpgm).length_eq
      have hcond : (cgL.isEmpty && pgL.isEmpty && !links.isEmpty) = false := by
        rcases hmatch with ⟨l, hl, hcp⟩
        rcases hcp with hcp | hcp
        · have hne := filter_ne_nil_of_mem hl hcp
          have : cgL ≠ [] := by
            intro hnil
            rw [hnil] at hcglen
            exact hne (List.length_eq_zero.mp hcglen)
          cases cgL with
          | nil => exact absurd rfl this
          | cons x xs => rfl
        · have hne := filter_ne_nil_of_mem hl hcp
          have : pgL ≠ [] := by
            intro hnil
            rw [hnil] at hpglen
            exact hne (List.length_eq_zero.mp hpglen)
          cases pgL with
          | nil => exact absurd rfl this
          | cons x xs => simp
      rw [hcond] at henr
      simp only [Bool.false_eq_true, if_false] at henr
      cases henr
      have hcgmap : cgL.map DisplayLink.url = (links.filter cgLinkMatch).map ConfLink.url :=
        forall₂_map_eq ConfLink.url DisplayLink.url
          (fun a b hab => displayLink_ok_url hab) (mapE_ok_forall₂ hcgm)
      have hpgmap : pgL.map DisplayLink.url = (links.filter pgLinkMatch).map ConfLink.url :=
        forall₂_map_eq ConfLink.url DisplayLink.url
          (fun a b hab => displayLink_ok_url hab) (mapE_ok_forall₂ hpgm)
      dsimp only
      refine ⟨?_, ?_, ?_, ?_⟩
      · cases cgL with
        | nil =>
          simp only [List.isEmpty_nil, Bool.not_true, Bool.false_eq_true, if_false]
          constructor
          · intro _
            exact List.length_eq_zero.mp hcglen
          · intro _
            trivial
        | cons x xs =>
          simp only [List.isEmpty_cons, Bool.not_false, if_true]
          constructor
          · intro hh
            exact absurd hh (by simp)
          · intro hh
            have : (links.filter cgLinkMatch).length = 0 := by rw [hh]; rfl
            rw [this] at hcglen
            exact absurd hcglen.symm (by simp)
      · intro cs hcs
        cases cgL with
        | nil =>
          simp only [List.isEmpty_nil, Bool.not_true, Bool.false_eq_true, if_false] at hcs
          exact absurd hcs (by simp)
        | cons x xs =>
          simp only [List.isEmpty_cons, Bool.not_false, if_true, Option.some.injEq] at hcs
          rw [← hcs]
          exact hcgmap
      · cases pgL with
        | nil =>
          simp only [List.isEmpty_nil, Bool.not_true, Bool.false_eq_true, if_false]
          constructor
          · intro _
            exact List.length_eq_zero.mp hpglen
          · intro _
            trivial
        | cons x xs =>
          simp only [List.isEmpty_cons, Bool.not_false, if_true]
          constructor
          · intro hh
            exact absurd hh (by simp)
          · intro hh
            have : (links.filter pgLinkMatch).length = 0 := by rw [hh]; rfl
            rw [this] at hpglen
            exact absurd hpglen.symm (by simp)
      · intro ps hps
        cases pgL with
        | nil =>
          simp only [List.isEmpty_nil, Bool.not_true, Bool.false_eq_true, if_false] at hps
          exact absurd hps (by simp)
        | cons x xs =>
          simp only [List.isEmpty_cons, Bool.not_false, if_true, Option.some.injEq] at hps
          rw [← hps]
          exact hpgmap

/-- C3 witness: Scenario A — the link titled "NDB 2.10 CG Readiness"
classifies into CG, so the CG list holds exactly it and the PG list is null. -/
theorem filtered_no_broadcast_witness :
    (scenarioAReadiness.cg = none ↔ scenarioALinks.filter cgLinkMatch = []) ∧
    (∀ cs, scenarioAReadiness.cg = some cs →
      cs.map DisplayLink.url = (scenarioALinks.filter cgLinkMatch).map ConfLink.url) ∧
    (scenarioAReadiness.pg = none ↔ scenarioALinks.filter pgLinkMatch = []) ∧
    (∀ ps, scenarioAReadiness.pg = some ps →
      ps.map DisplayLink.url = (scenarioALinks.filter pgLinkMatch).map ConfLink.url) :=
  filtered_no_broadcast scenarioALinks scenarioAReadiness (by decide) (by rfl)

/-- C4: a failed remote-link fetch for one item — a thrown error (timeout,
401/403, any HTTP error) or a malformed non-array body — never aborts the
batch: the enrichment still returns a record for every item (the failed one
included), and the failed item carries no links (both category lists null). -/
theorem batch_isolation (o : FetchOracle) (issues : List Str) (X : Str)
    (hX : X ∈ issues)
    (hfail : fetchDegraded (o X) = true)
    (hok : ∀ k ∈ issues, k ≠ X → (enrichLinks (confLinksFor o k)).isOk = true) :
    ∃ rs, enrichBatch o issues = .ok rs ∧
      rs.map Prod.fst = issues ∧
      ∀ p ∈ rs, p.1 = X → p.2 = { cg := none, pg := none } := by
  have hXlinks : confLinksFor o X = [] := confLinksFor_degraded hfail
  have hall : ∀ k ∈ issues, (enrichLinks (confLinksFor o k)).isOk = true := by
    intro k hk
    by_cases hkx : k = X
    · rw [hkx, hXlinks, enrichLinks_nil]
      rfl
    · exact hok k hk hkx
  rcases enrichBatch_ok_of_pointwise o issues hall with ⟨rs, hrs, hmap, hpt⟩
  refine ⟨rs, hrs, hmap, ?_⟩
  intro p hp hpx
  have h1 := hpt p hp
  rw [hpx, hXlinks, enrichLinks_nil] at h1
  exact (Except.ok.inj h1).symm

/-- C4 witness: two two-item batches, one where item "X" throws HTTP 500 and
one where its response body is malformed (not an array); both still yield
records for both items, "X" carrying no links. -/
theorem batch_isolation_witness :
    (∃ rs, enrichBatch oracle500 [str ("A"), str ("X")] = .ok rs ∧
      rs.map Prod.fst = [str ("A"), str ("X")] ∧
      ∀ p ∈ rs, p.1 = str ("X") → p.2 = { cg := none, pg := none }) ∧
    (∃ rs, enrichBatch oracleBadBody [str ("A"), str ("X")] = .ok rs ∧
      rs.map Prod.fst = [str ("A"), str ("X")] ∧
      ∀ p ∈ rs, p.1 = str ("X") → p.2 = { cg := none, pg := none }) :=
  ⟨batch_isolation oracle500 [str ("A"), str ("X")] (str ("X"))
    (by decide) (by decide) (by decide),
   batch_isolation oracleBadBody [str ("A"), str ("X")] (str ("X"))
    (by decide) (by decide) (by decide)⟩

/-- C5: a 404 from the remote-link lookup for a work item is treated as zero
links, not as an error: the item's Confluence link list is empty, its
enrichment succeeds with both category lists null, and the batch still
returns a record for every item. -/
theorem notfound_is_zero_links (o : FetchOracle) (issues : List Str) (X : Str)
    (h404 : o X = .httpError 404)
    (hok : ∀ k ∈ issues, k ≠ X → (enrichLinks (confLinksFor o k)).isOk = true) :
    confLinksFor o X = [] ∧
    enrichLinks (confLinksFor o X) = .ok { cg := none, pg := none } ∧
    ∃ rs, enrichBatch o issues = .ok rs ∧ rs.map Prod.fst = issues := by
  have hfail : fetchFails (o X) = true := by rw [h404]; rfl
  have hXlinks : confLinksFor o X = [] := confLinksFor_fail hfail
  refine ⟨hXlinks, by rw [hXlinks, enrichLinks_nil], ?_⟩
  have hall : ∀ k ∈ issues, (enrichLinks (confLinksFor o k)).isOk = true := by
    intro k hk
    by_cases hkx : k = X
    · rw [hkx, hXlinks, enrichLinks_nil]
      rfl
    · exact hok k hk hkx
  rcases enrichBatch_ok_of_pointwise o issues hall with ⟨rs, hrs, hmap, _⟩
  exact ⟨rs, hrs, hmap⟩

/-- C5 witness: a two-item batch where item "X" gets a 404; "X" ends with
zero links, both category lists null, and the batch covers both items. -/
theorem notfound_is_zero_links_witness :
    confLinksFor oracle404 (str ("X")) = [] ∧
    enrichLinks (confLinksFor oracle404 (str ("X"))) = .ok { cg := none, pg := none } ∧
    ∃ rs, enrichBatch oracle404 [str ("A"), str ("X")] = .ok rs ∧
      rs.map Prod.fst = [str ("A"), str ("X")] :=
  notfound_is_zero_links oracle404 [str ("A"), str ("X")] (str ("X")) (by decide) (by decide)

/-- C6 counterexample: the Bearer request is made with a status validator
accepting 200..599 and its response is used with no status check, so when
both authenticated attempts fail with HTTP errors (Basic 401, Bearer 500)
but the 500 body happens to carry a title and labels, `getPageTitle` returns
that title — not null — and the label fetch returns those labels — not the
empty set. -/
theorem resolver_error_body_title_counterexample :
    getPageTitle (str ("http://c/pages/12/T")) (some []) (.resp 401 none none)
      (.resp 500 (some (str ("Oops"))) (some [str ("lbl")]))
      = some (str ("Oops")) ∧
    fetchLabelsFor (str ("http://c/pages/12/T")) (.resp 401 none none)
      (.resp 500 (some (str ("Oops"))) (some [str ("lbl")]))
      = [str ("lbl")] := by
  constructor <;> rfl

/-- C6 (amended): title resolution never throws past its own boundary — it
is total and returns null for a URL that is not an http(s) string, for a URL
with no extractable page id, for a missing token, when both authenticated
attempts fail with Basic not returning 200 and Bearer throwing (labels then
degrading to the empty set), and when the Bearer error response carries no
title; however, a non-200 Bearer HTTP response is not itself treated as a
failure: its body supplies `title || null` and its labels when present. -/
theorem resolver_absorbs_failures (url : Str) (token : Option Str) (basic bearer : HttpResp) :
    (isPrefixStr (str ("http")) url = false → getPageTitle url token basic bearer = none) ∧
    (extractPageId url = none → getPageTitle url token basic bearer = none) ∧
    (token = none → getPageTitle url token basic bearer = none) ∧
    (basicFails basic = true → bearer = .thrown →
      getPageTitle url token basic bearer = none ∧ fetchLabelsFor url basic bearer = []) ∧
    (basicFails basic = true → ∀ s lb2,
      getPageTitle url token basic (.resp s none lb2) = none) ∧
    (isPrefixStr (str ("http")) url = true → (extractPageId url).isSome = true →
      ∀ tk s t lb2, basicFails basic = true →
        getPageTitle url (some tk) basic (.resp s t lb2) = jsTitle t ∧
        fetchLabelsFor url basic (.resp s t lb2) = lb2.getD []) := by
  refine ⟨?_, ?_, ?_, ?_, ?_, ?_⟩
  · intro h
    unfold getPageTitle getPageTitleRaw
    rw [h, if_pos rfl]
  · intro h
    unfold getPageTitle getPageTitleRaw
    by_cases hp : isPrefixStr (str ("http")) url = false
    · rw [if_pos hp]
    · rw [if_neg hp, h]
  · intro h
    unfold getPageTitle getPageTitleRaw
    by_cases hp : isPrefixStr (str ("http")) url = false
    · rw [if_pos hp]
    · rw [if_neg hp]
      cases hpid : extractPageId url with
      | none => rfl
      | some pid =>
        rw [h]
  · intro hb hr
    subst hr
    constructor
    · unfold getPageTitle getPageTitleRaw
      by_cases hp : isPrefixStr (str ("http")) url = false
      · rw [if_pos hp]
      · rw [if_neg hp]
        cases hpid : extractPageId url with
        | none => rfl
        | some pid =>
          cases token with
          | none => rfl
          | some tk =>
            cases basic with
            | thrown => rfl
            | resp s t lb =>
              have hs : (s == 200) = false := by
                have : basicFails (HttpResp.resp s t lb) = true := hb
                rw [show basicFails (HttpResp.resp s t lb) = !(s == 200) from rfl] at this
                cases hse : s == 200 with
                | false => rfl
                | true =>
                  rw [hse] at this
                  simp at this
              dsimp only
              rw [hs]
              rfl
    · unfold fetchLabelsFor
      cases hpid : extractPageId url with
      | none => rfl
      | some pid =>
        unfold fetchLabels
        cases basic with
        | thrown => rfl
        | resp s t lb =>
          have hs : (s == 200) = false := by
            have : basicFails (HttpResp.resp s t lb) = true := hb
            rw [show basicFails (HttpResp.resp s t lb) = !(s == 200) from rfl] at this
            cases hse : s == 200 with
            | false => rfl
            | true =>
              rw [hse] at this
              simp at this
          dsimp only
          rw [hs]
          rfl
  · intro hb s lb2
    unfold getPageTitle getPageTitleRaw
    by_cases hp : isPrefixStr (str ("http")) url = false
    · rw [if_pos hp]
    · rw [if_neg hp]
      cases hpid : extractPageId url with
      | none => rfl
      | some pid =>
        cases token with
        | none => rfl
        | some tk =>
          cases basic with
          | thrown => rfl
          | resp s2 t2 lb3 =>
            have hs : (s2 == 200) = false := by
              have h2 : basicFails (HttpResp.resp s2 t2 lb3) = true := hb
              rw [show basicFails (HttpResp.resp s2 t2 lb3) = !(s2 == 200) from rfl] at h2
              cases hse : s2 == 200 with
              | false => rfl
              | true =>
                rw [hse] at h2
                simp at h2
            dsimp only
            rw [hs]
            rfl
  · intro hp hpids tk s t lb2 hb
    rcases Option.isSome_iff_exists.mp hpids with ⟨pid, hpidv⟩
    constructor
    · unfold getPageTitle getPageTitleRaw
      rw [if_neg (by rw [hp]; simp), hpidv]
      cases basic with
      | thrown => rfl
      | resp s2 t2 lb3 =>
        have hs : (s2 == 200) = false := by
          have h2 : basicFails (HttpResp.resp s2 t2 lb3) = true := hb
          rw [show basicFails (HttpResp.resp s2 t2 lb3) = !(s2 == 200) from rfl] at h2
          cases hse : s2 == 200 with
          | false => rfl
          | true =>
            rw [hse] at h2
            simp at h2
        dsimp only
        rw [hs]
        rfl
    · unfold fetchLabelsFor
      rw [hpidv]
      unfold fetchLabels
      cases basic with
      | thrown => rfl
      | resp s2 t2 lb3 =>
        have hs : (s2 == 200) = false := by
          have h2 : basicFails (HttpResp.resp s2 t2 lb3) = true := hb
          rw [show basicFails (HttpResp.resp s2 t2 lb3) = !(s2 == 200) from rfl] at h2
          cases hse : s2 == 200 with
          | false => rfl
          | true =>
            rw [hse] at h2
            simp at h2
        dsimp only
        rw [hs]
        rfl

/-- C6 witness: the failure hypotheses discharged at concrete inputs — a
non-http URL with no page id, a missing token, a failed Basic attempt, a
thrown Bearer attempt, a title-free Bearer error body, and a title-bearing
Bearer error body whose title is used. -/
theorem resolver_absorbs_failures_witness :
    getPageTitle (str ("ftp://x")) none .thrown .thrown = none ∧
    fetchLabelsFor (str ("ftp://x")) .thrown .thrown = [] ∧
    getPageTitle (str ("ftp://x")) none .thrown (.resp 500 none none) = none ∧
    getPageTitle (str ("http://c/pages/12/T")) (some []) (.resp 401 none none)
      (.resp 500 (some (str ("Oops"))) (some [])) = jsTitle (some (str ("Oops"))) :=
  ⟨((resolver_absorbs_failures (str ("ftp://x")) none .thrown .thrown).2.2.2.1 (by rfl) rfl).1,
   ((resolver_absorbs_failures (str ("ftp://x")) none .thrown .thrown).2.2.2.1 (by rfl) rfl).2,
   (resolver_absorbs_failures (str ("ftp://x")) none .thrown (.resp 500 none none)).2.2.2.2.1
     (by rfl) 500 none,
   ((resolver_absorbs_failures (str ("http://c/pages/12/T")) none (.resp 401 none none)
       .thrown).2.2.2.2.2 (by decide) (by decide) [] 500 (some (str ("Oops"))) (some [])
       (by rfl)).1⟩

/-- C7: per resolution attempt, the Basic (email:token) scheme is tried first
against the content endpoint: when it returns status 200 the title and labels
come from it and the Bearer outcome is never consulted; only when Basic does
not return 200 (or throws) is the Bearer scheme tried, and a 200 Bearer
response then supplies the title and labels. -/
theorem auth_scheme_order (url : Str) (tk : Str) (basic : HttpResp)
    (hurl : isPrefixStr (str ("http")) url = true)
    (hpid : (extractPageId url).isSome = true) :
    (∀ t lb, basic = .resp 200 t lb →
      (∀ r1 r2, getPageTitle url (some tk) basic r1 = getPageTitle url (some tk) basic r2) ∧
      (∀ r, getPageTitle url (some tk) basic r = jsTitle t) ∧
      (∀ r1 r2, fetchLabelsFor url basic r1 = fetchLabelsFor url basic r2) ∧
      (∀ r, fetchLabelsFor url basic r = lb.getD [])) ∧
    (basicFails basic = true →
      ∀ t lb, getPageTitle url (some tk) basic (.resp 200 t lb) = jsTitle t ∧
        fetchLabelsFor url basic (.resp 200 t lb) = lb.getD []) := by
  have hnp : ¬(isPrefixStr (str ("http")) url = false) := by
    rw [hurl]
    simp
  rcases Option.isSome_iff_exists.mp hpid with ⟨pid, hpidv⟩
  constructor
  · intro t lb hbasic
    subst hbasic
    have htitle : ∀ r, getPageTitle url (some tk) (.resp 200 t lb) r = jsTitle t := by
      intro r
      unfold getPageTitle getPageTitleRaw
      rw [if_neg hnp, hpidv]
      rfl
    have hlab : ∀ r, fetchLabelsFor url (.resp 200 t lb) r = lb.getD [] := by
      intro r
      unfold fetchLabelsFor
      rw [hpidv]
      rfl
    exact ⟨fun r1 r2 => (htitle r1).trans (htitle r2).symm, htitle,
      fun r1 r2 => (hlab r1).trans (hlab r2).symm, hlab⟩
  · intro hb t lb
    constructor
    · unfold getPageTitle getPageTitleRaw
      rw [if_neg hnp, hpidv]
      cases basic with
      | thrown => rfl
      | resp s t2 lb2 =>
        have hs : (s == 200) = false := by
          have h2 : basicFails (HttpResp.resp s t2 lb2) = true := hb
          rw [show basicFails (HttpResp.resp s t2 lb2) = !(s == 200) from rfl] at h2
          cases hse : s == 200 with
          | false => rfl
          | true =>
            rw [hse] at h2
            simp at h2
        dsimp only
        rw [hs]
        rfl
    · unfold fetchLabelsFor
      rw [hpidv]
      unfold fetchLabels
      cases basic with
      | thrown => rfl
      | resp s t2 lb2 =>
        have hs : (s == 200) = false := by
          have h2 : basicFails (HttpResp.resp s t2 lb2) = true := hb
          rw [show basicFails (HttpResp.resp s t2 lb2) = !(s == 200) from rfl] at h2
          cases hse : s == 200 with
          | false => rfl
          | true =>
            rw [hse] at h2
            simp at h2
        dsimp only
        rw [hs]
        rfl

/-- C7 witness: a 200 Basic response supplies the title with the Bearer
outcome irrelevant, and a failed Basic followed by a 200 Bearer response
supplies the title from Bearer — at concrete inputs. -/
theorem auth_scheme_order_witness :
    getPageTitle (str ("http://c/pages/12/T")) (some [])
      (.resp 200 (some (str ("T"))) (some [])) .thrown = jsTitle (some (str ("T"))) ∧
    getPageTitle (str ("http://c/pages/12/T")) (some [])
      (.resp 401 none none) (.resp 200 (some (str ("T"))) (some []))
      = jsTitle (some (str ("T"))) :=
  ⟨((auth_scheme_order (str ("http://c/pages/12/T")) [] (.resp 200 (some (str ("T"))) (some []))
      (by decide) (by decide)).1 (some (str ("T"))) (some []) rfl).2.1 .thrown,
   ((auth_scheme_order (str ("http://c/pages/12/T")) [] (.resp 401 none none)
      (by decide) (by decide)).2 (by rfl) (some (str ("T"))) (some [])).1⟩
